import Mathlib

/-!
Verification of the Oro kernel registry subsystem
(src/oro-kernel/src/registry.rs) and the unfair spinlock
(src/oro-common/src/sync/spinlock.rs).

The Rust code is shallowly embedded: machine usize values are
natural numbers, with wrap-around modelled explicitly (mod 2^64)
on the atomic reference-count operations where the source relies
on fetch_add / fetch_sub semantics.  Stateful code is modelled by
explicit state passing; fallible code returns an error sum.
-/

namespace OroRegistry

/-- The number of values of the Rust usize type (64-bit targets). -/
def USIZE : Nat := 2 ^ 64

/-- The Rust value usize::MAX, used by the registry bookkeeping as the
sentinel meaning the free list is empty (registry.rs line 77). -/
def USIZE_MAX : Nat := USIZE - 1

/-- fetch_add(1) on an AtomicUsize: returns the new counter value
(the source keeps the old value as last_user_count; we expose the old
value separately where needed). Wraps at 2^64 like the machine. -/
def uadd1 (n : Nat) : Nat := (n + 1) % USIZE

/-- fetch_sub(1) on an AtomicUsize: the new counter value, wrapping at
zero exactly as the machine does (0 - 1 = usize::MAX). -/
def usub1 (n : Nat) : Nat := (n + (USIZE - 1)) % USIZE

/-- The error type returned by registry operations.  The source uses
oro_mem::mapper::MapError; we model the variants the registry code
produces itself, plus one abstract variant standing for whatever error
the external segment map call propagates (registry.rs line 215). -/
inductive MapError where
  /-- MapError::VirtOutOfRange: the segment reserved range is exceeded. -/
  | virtOutOfRange
  /-- MapError::OutOfMemory: the page frame allocator is exhausted. -/
  | outOfMemory
  /-- Any error propagated from the external segment map call. -/
  | mapOther
deriving DecidableEq, Repr

/-- The union MaybeItem<T> of registry.rs (lines 111-116): either the
occupied item (behind its own item lock, which is irrelevant to the
sequential model) or the index of the next free slot. -/
inductive MaybeItem (T : Type) where
  /-- The item itself (ManuallyDrop<UnfairCriticalSpinlock<T>>). -/
  | item (t : T)
  /-- The next free index. -/
  | next_free (n : Nat)
deriving DecidableEq, Repr

/-- Reading the next_free arm of the union.  The source performs this
read (slot.maybe_item.next_free) only on slots that sit on the free
list, where the arm is valid; reading it from an occupied slot is
undefined behaviour in the source and is given the arbitrary value 0
here. -/
def MaybeItem.next_free_val {T : Type} : MaybeItem T → Nat
  | .next_free n => n
  | .item _ => 0

/-- ItemFrame<T> of registry.rs (lines 100-107): an item slot together
with its user (reference) count.  A count of zero means the slot is
free. -/
structure ItemFrame (T : Type) where
  /-- The union of the item or the next free index. -/
  maybe_item : MaybeItem T
  /-- Count of users of this item. -/
  user_count : Nat
deriving DecidableEq, Repr

/-- The whole observable state of one registry: the initialized prefix
of the slot array that the base pointer points into, together with the
RegistryBookkeeping fields (registry.rs lines 74-83).  Slot i of the
source array is slots[i] here; slots beyond total_count are
uninitialized in the source and absent here. -/
structure RegistryState (T : Type) where
  /-- The initialized slots, slot id = list index. -/
  slots : List (ItemFrame T)
  /-- The last free ID; USIZE_MAX means no free slots. -/
  last_free_id : Nat
  /-- The total count of items in the registry. -/
  total_count : Nat
  /-- Total page count of the registry. -/
  total_page_count : Nat
deriving DecidableEq, Repr

/-- RegistryBookkeeping::new (registry.rs lines 87-93) together with the
initially empty slot area: the state of a freshly created registry. -/
def RegistryState.new (T : Type) : RegistryState T :=
  { slots := []
    last_free_id := USIZE_MAX
    total_count := 0
    total_page_count := 0 }

/-- The user count of the slot at the given id (0 for ids outside the
initialized prefix). -/
def slot_count {T : Type} (st : RegistryState T) (id : Nat) : Nat :=
  match st.slots[id]? with
  | some f => f.user_count
  | none => 0

/-- The page frame allocator interface consumed by the registry
(spec section 6): a pool of physical pages; allocate fails when the
pool is exhausted, free returns a page to the pool. -/
structure Pfa where
  /-- The pool of free physical pages. -/
  free_pages : List Nat
deriving DecidableEq, Repr

/-- Pfa allocate: returns a physical page, or none when exhausted. -/
def Pfa.allocate : Pfa → Option (Nat × Pfa)
  | ⟨[]⟩ => none
  | ⟨p :: rest⟩ => some (p, ⟨rest⟩)

/-- Pfa free: release a physical page back to the allocator. -/
def Pfa.free (pfa : Pfa) (page : Nat) : Pfa :=
  ⟨page :: pfa.free_pages⟩

/-- The parameters of the address-space segment backing one registry
(external collaborator, spec section 6): the slot size
size_of::<MaybeUninit<ItemFrame<T>>>, the reserved virtual range
segment.range() = (range_lo, range_hi), and the success predicate of
the external segment.map call (true = map succeeds). -/
structure SegmentConfig where
  /-- size_of::<MaybeUninit<ItemFrame<T>>> in bytes. -/
  slot_size : Nat
  /-- segment.range().0, the inclusive low virtual address. -/
  range_lo : Nat
  /-- segment.range().1, the inclusive high virtual address. -/
  range_hi : Nat
  /-- Whether segment.map(virt, page) succeeds. -/
  map_ok : Nat → Nat → Bool

/-- The page growth loop of Registry::insert_permanent (registry.rs
lines 198-222): for page_id in total_page_count..new_page_count,
allocate a physical page (OutOfMemory when the allocator is
exhausted), map it at range_lo + page_id * 4096 (on map failure the
just-allocated page is freed and the error returned), and only after a
successful map increment total_page_count.  The fuel argument is the
iteration count new_page_count - total_page_count of the source loop,
whose bounds are computed once before the loop runs.  Errors return
the partially mutated state, exactly as the source mutations persist.
-/
def grow_pages {T : Type} (cfg : SegmentConfig) :
    Nat → Nat → RegistryState T → Pfa →
    Option MapError × RegistryState T × Pfa
  | 0, _, st, pfa => (none, st, pfa)
  | fuel + 1, page_id, st, pfa =>
    match pfa.allocate with
    | none => (some .outOfMemory, st, pfa)
    | some (page, pfa') =>
      let virt := cfg.range_lo + page_id * 4096
      if cfg.map_ok virt page then
        grow_pages cfg fuel (page_id + 1)
          { st with total_page_count := st.total_page_count + 1 } pfa'
      else
        (some .mapOther, st, pfa'.free page)

/-- The result of one insert_permanent call: the returned
Result<usize, MapError> plus the state of the registry and of the page
frame allocator after the call (mutations persist on error). -/
structure InsertResult (T : Type) where
  /-- The Result<usize, MapError> return value. -/
  res : Except MapError Nat
  /-- The registry state after the call. -/
  st : RegistryState T
  /-- The page frame allocator after the call. -/
  pfa : Pfa

/-- The growth arm of Registry::insert_permanent (registry.rs lines
186-235), taken when the free list is empty: compute the byte offset
of the next slot, fail with VirtOutOfRange when the reserved virtual
range would be exceeded, compute new_page_end = byte_offset_end &
!4095 (written here as rounding down to a 4096 multiple, identical for
all usize values) and new_page_count = new_page_end + 1 exactly as the
source does, run the growth loop when new_page_count exceeds
total_page_count, then write the new frame with user count 1 at index
id = total_count (the append models the raw write one past the
initialized prefix) and increment total_count. -/
def insert_grow {T : Type} (cfg : SegmentConfig) (st : RegistryState T)
    (pfa : Pfa) (it : T) : InsertResult T :=
  let byte_offset := st.total_count * cfg.slot_size
  let byte_offset_end := byte_offset + cfg.slot_size
  if cfg.range_lo + byte_offset_end - 1 > cfg.range_hi then
    ⟨.error .virtOutOfRange, st, pfa⟩
  else
    let new_page_end := byte_offset_end / 4096 * 4096
    let new_page_count := new_page_end + 1
    let grown :=
      if new_page_count > st.total_page_count then
        grow_pages cfg (new_page_count - st.total_page_count)
          st.total_page_count st pfa
      else (none, st, pfa)
    match grown with
    | (some e, st1, pfa1) => ⟨.error e, st1, pfa1⟩
    | (none, st1, pfa1) =>
      let id := st1.total_count
      ⟨.ok id,
       { st1 with
           total_count := st1.total_count + 1
           slots := st1.slots ++ [⟨.item it, 1⟩] },
       pfa1⟩

/-- The free-list arm of Registry::insert_permanent (registry.rs lines
236-245): pop the free list head, advance last_free_id to the popped
slot next_free field, fetch_add(1) the user count (the source
debug-asserts the old value was 0), and write the item into the slot.
The source reads the slot through an unchecked pointer; the
out-of-prefix case (impossible on well-formed states) is modelled as
leaving the state unchanged. -/
def insert_reuse {T : Type} (st : RegistryState T) (pfa : Pfa) (it : T) :
    InsertResult T :=
  let id := st.last_free_id
  match st.slots[id]? with
  | none => ⟨.ok id, st, pfa⟩
  | some f =>
    ⟨.ok id,
     { st with
         last_free_id := f.maybe_item.next_free_val
         slots := st.slots.set id ⟨.item it, uadd1 f.user_count⟩ },
     pfa⟩

/-- Registry::insert_permanent (registry.rs lines 176-246): under the
bookkeeping lock, take the growth arm when last_free_id = usize::MAX
(free list empty) and the free-list arm otherwise.  Registry::insert
(lines 254-269) calls this and wraps the id in a Handle. -/
def insert_permanent {T : Type} (cfg : SegmentConfig)
    (st : RegistryState T) (pfa : Pfa) (it : T) : InsertResult T :=
  if st.last_free_id = USIZE_MAX then
    insert_grow cfg st pfa it
  else
    insert_reuse st pfa it

/-- Registry::get (registry.rs lines 284-309): under the bookkeeping
lock, return None when id >= total_count; otherwise return None when
the slot user count is zero, else fetch_add(1) the count and return
Some(Handle { id }).  A returned handle is represented by its slot id.
-/
def registry_get {T : Type} (st : RegistryState T) (id : Nat) :
    Option Nat × RegistryState T :=
  if st.total_count ≤ id then (none, st)
  else
    match st.slots[id]? with
    | none => (none, st)
    | some f =>
      if f.user_count = 0 then (none, st)
      else
        (some id,
         { st with
             slots := st.slots.set id ⟨f.maybe_item, uadd1 f.user_count⟩ })

/-- RegistryAccess::lease_item_at (registry.rs lines 362-368):
fetch_add(1) on the slot user count.  Called by Handle::clone (lines
445-459).  The unchecked pointer read on an id outside the initialized
prefix is undefined behaviour in the source and modelled as a no-op. -/
def lease_item_at {T : Type} (st : RegistryState T) (id : Nat) :
    RegistryState T :=
  match st.slots[id]? with
  | none => st
  | some f =>
    { st with slots := st.slots.set id ⟨f.maybe_item, uadd1 f.user_count⟩ }

/-- The condition checked by the debug assertion in lease_item_at
(registry.rs line 367): debug_assert_eq!(last_user_count, 0), where
last_user_count is the counter value before the fetch_add.  The
assertion does not fire exactly when this proposition holds. -/
def lease_debug_assert {T : Type} (st : RegistryState T) (id : Nat) : Prop :=
  slot_count st id = 0

/-- RegistryAccess::forget_item_at (registry.rs lines 370-391):
fetch_sub(1) on the slot user count (the source debug-asserts the old
value was nonzero); when the old value was 1, destroy the payload in
place and only then take the bookkeeping lock to push the slot onto
the free list (slot.next_free = last_free_id; last_free_id = id).
Called by Handle::drop (lines 461-470). -/
def forget_item_at {T : Type} (st : RegistryState T) (id : Nat) :
    RegistryState T :=
  match st.slots[id]? with
  | none => st
  | some f =>
    if f.user_count = 1 then
      { st with
          slots := st.slots.set id ⟨.next_free st.last_free_id, usub1 f.user_count⟩
          last_free_id := id }
    else
      { st with slots := st.slots.set id ⟨f.maybe_item, usub1 f.user_count⟩ }

/-- Handle::clone applied k times to a handle on slot id: k successive
lease_item_at calls. -/
def lease_iter {T : Type} (id : Nat) : Nat → RegistryState T → RegistryState T
  | 0, st => st
  | k + 1, st => lease_iter id k (lease_item_at st id)

/-- Handle::drop applied j times to handles on slot id: j successive
forget_item_at calls. -/
def forget_iter {T : Type} (id : Nat) : Nat → RegistryState T → RegistryState T
  | 0, st => st
  | j + 1, st => forget_iter id j (forget_item_at st id)

/-- One registry operation, for stating properties over arbitrary
operation sequences: insert (Registry::insert / insert_permanent), get
(Registry::get), clone (Handle::clone) and drop (Handle::drop). -/
inductive RegistryOp (T : Type) where
  /-- Registry::insert of an item under a segment configuration. -/
  | insert (cfg : SegmentConfig) (it : T)
  /-- Registry::get at an id. -/
  | get (id : Nat)
  /-- Handle::clone of a handle on slot id. -/
  | clone (id : Nat)
  /-- Handle::drop of a handle on slot id. -/
  | drop (id : Nat)

/-- Run one registry operation on the registry plus allocator state. -/
def run_op {T : Type} : RegistryOp T → RegistryState T × Pfa →
    RegistryState T × Pfa
  | .insert cfg it, (st, pfa) =>
    let r := insert_permanent cfg st pfa it
    (r.st, r.pfa)
  | .get id, (st, pfa) => ((registry_get st id).2, pfa)
  | .clone id, (st, pfa) => (lease_item_at st id, pfa)
  | .drop id, (st, pfa) => (forget_item_at st id, pfa)

/-- Run a sequence of registry operations. -/
def run_ops {T : Type} (ops : List (RegistryOp T))
    (s : RegistryState T × Pfa) : RegistryState T × Pfa :=
  ops.foldl (fun s op => run_op op s) s

end OroRegistry

namespace OroSpinlock

/-- The observable state an UnfairSpinlock interacts with
(src/oro-common/src/sync/spinlock.rs): the owned flag of the lock and
the interrupt state of the acquiring core.  The interrupt state type S
is abstract, mirroring the associated type Arch::InterruptState; the
architecture designates one value as the state after
disable_interrupts. -/
structure SpinlockState (S : Type) where
  /-- The owned: AtomicBool field of the lock. -/
  owned : Bool
  /-- The interrupt state of the core (read by fetch_interrupts,
  written by disable_interrupts and restore_interrupts). -/
  int_state : S
deriving DecidableEq, Repr

/-- UnfairSpinlock::lock (spinlock.rs lines 73-84): save interrupt_state
= fetch_interrupts(), disable_interrupts(), then spin on the compare
exchange of owned.  In the sequential model the compare exchange
succeeds exactly when the lock is not currently owned; a held lock
means the core keeps spinning, modelled as none.  On success the
result is the post-acquire state (owned, interrupts at the designated
disabled value) together with the interrupt_state saved in the guard.
-/
def spinlock_lock {S : Type} (disabled : S) (s : SpinlockState S) :
    Option (SpinlockState S × S) :=
  let interrupt_state := s.int_state
  if s.owned then none
  else some ({ owned := true, int_state := disabled }, interrupt_state)

/-- UnfairSpinlockGuard::drop (spinlock.rs lines 117-130): store false
into owned, then restore_interrupts(self.interrupt_state), in that
order. -/
def spinlock_guard_drop {S : Type} (held : SpinlockState S) (saved : S) :
    SpinlockState S :=
  let released := { held with owned := false }
  { released with int_state := saved }

end OroSpinlock

namespace OroItemIter

/-- The link structure of one Item<T> node (registry.rs lines 515-522):
optional handles to the previous and next items, each represented by
its slot id in the item registry.  The payload handle plays no role in
iteration. -/
structure LinkNode where
  /-- The previous item in the list, if any. -/
  prev : Option Nat
  /-- The next item in the list, if any. -/
  next : Option Nat
deriving DecidableEq, Repr

/-- The direction of an item iterator (registry.rs lines 640-645). -/
inductive ItemIterDirection where
  /-- Forward iteration. -/
  | forward
  /-- Backward iteration. -/
  | backward
deriving DecidableEq, Repr

/-- Follow the link of the current node in the given direction
(the locked read of current.next or current.prev in ItemIter::next,
registry.rs lines 663-666). -/
def link_of (reg : List LinkNode) (dir : ItemIterDirection) (c : Nat) :
    Option Nat :=
  match reg[c]? with
  | none => none
  | some node =>
    match dir with
    | .forward => node.next
    | .backward => node.prev

/-- The sequence of slot ids yielded by repeatedly calling
ItemIter::next (registry.rs lines 657-672) until it returns None,
starting from the given current field.  Each call takes the current
node, reads its link in the iteration direction, stores that link back
into current, and returns that link value (the source returns next,
not the taken current node).  The fuel bounds the number of calls; any
fuel at least the chain length is exact for acyclic chains. -/
def iter_collect (reg : List LinkNode) (dir : ItemIterDirection) :
    Nat → Option Nat → List Nat
  | 0, _ => []
  | _, none => []
  | fuel + 1, some c =>
    match link_of reg dir c with
    | none => []
    | some nxt => nxt :: iter_collect reg dir fuel (some nxt)

/-- ItemIterEx::iter_all (registry.rs lines 692-698) and
Registry::iter_all (lines 621-630): take the last element yielded by a
backward iterator from the starting node, then iterate forward from
it. -/
def iter_all_collect (reg : List LinkNode) (fuel : Nat)
    (start : Option Nat) : List Nat :=
  iter_collect reg .forward fuel
    ((iter_collect reg .backward fuel start).getLast?)

end OroItemIter

namespace OroRegistry

theorem uadd1_eq_succ {n : Nat} (h : n + 1 < USIZE) : uadd1 n = n + 1 :=
  Nat.mod_eq_of_lt h

theorem usub1_eq_pred {n : Nat} (h1 : 1 ≤ n) (h2 : n < USIZE) :
    usub1 n = n - 1 := by
  unfold usub1
  have hU : 0 < USIZE := by decide
  have he : n + (USIZE - 1) = (n - 1) + USIZE := by omega
  rw [he, Nat.add_mod_right]
  exact Nat.mod_eq_of_lt (by omega)

theorem usub1_one : usub1 1 = 0 := by decide

theorem grow_pages_preserve {T : Type} (cfg : SegmentConfig) :
    ∀ (fuel page_id : Nat) (st : RegistryState T) (pfa : Pfa),
      (grow_pages cfg fuel page_id st pfa).2.1.slots = st.slots ∧
      (grow_pages cfg fuel page_id st pfa).2.1.last_free_id = st.last_free_id ∧
      (grow_pages cfg fuel page_id st pfa).2.1.total_count = st.total_count := by
  intro fuel
  induction fuel with
  | zero => intro page_id st pfa; simp [grow_pages]
  | succ n ih =>
    intro page_id st pfa
    obtain ⟨l⟩ := pfa
    cases l with
    | nil => simp [grow_pages, Pfa.allocate]
    | cons p rest =>
      simp only [grow_pages, Pfa.allocate]
      by_cases h : cfg.map_ok (cfg.range_lo + page_id * 4096) p
      · simpa [h] using ih (page_id + 1)
          { st with total_page_count := st.total_page_count + 1 } ⟨rest⟩
      · simp [h]

theorem grow_pages_tpc_mono {T : Type} (cfg : SegmentConfig) :
    ∀ (fuel page_id : Nat) (st : RegistryState T) (pfa : Pfa),
      st.total_page_count ≤
        (grow_pages cfg fuel page_id st pfa).2.1.total_page_count := by
  intro fuel
  induction fuel with
  | zero => intro page_id st pfa; simp [grow_pages]
  | succ n ih =>
    intro page_id st pfa
    obtain ⟨l⟩ := pfa
    cases l with
    | nil => simp [grow_pages, Pfa.allocate]
    | cons p rest =>
      simp only [grow_pages, Pfa.allocate]
      by_cases h : cfg.map_ok (cfg.range_lo + page_id * 4096) p
      · simp only [h, if_true]
        calc st.total_page_count
            ≤ st.total_page_count + 1 := Nat.le_succ _
          _ ≤ _ := ih (page_id + 1)
                { st with total_page_count := st.total_page_count + 1 } ⟨rest⟩
      · simp [h]

theorem grow_pages_balance {T : Type} (cfg : SegmentConfig) :
    ∀ (fuel page_id : Nat) (st : RegistryState T) (pfa : Pfa),
      (grow_pages cfg fuel page_id st pfa).2.2.free_pages.length +
        (grow_pages cfg fuel page_id st pfa).2.1.total_page_count =
      pfa.free_pages.length + st.total_page_count := by
  intro fuel
  induction fuel with
  | zero => intro page_id st pfa; simp [grow_pages]
  | succ n ih =>
    intro page_id st pfa
    obtain ⟨l⟩ := pfa
    cases l with
    | nil => simp [grow_pages, Pfa.allocate]
    | cons p rest =>
      simp only [grow_pages, Pfa.allocate]
      by_cases h : cfg.map_ok (cfg.range_lo + page_id * 4096) p
      · simp only [h, if_true, List.length_cons]
        have := ih (page_id + 1)
          { st with total_page_count := st.total_page_count + 1 } ⟨rest⟩
        simp only at this
        omega
      · simp [h, Pfa.free]

/-- The full case analysis of the growth arm of insert_permanent: there
is an intermediate state (the result of the page growth loop, or the
unchanged state) whose slots, free list and item count equal the
initial ones, whose page count has not decreased and balances with the
allocator pool, such that insert_grow either returns an error with
that intermediate state, or returns id = total_count after appending
the new frame with user count 1 and bumping total_count. -/
theorem insert_grow_anatomy {T : Type} (cfg : SegmentConfig)
    (st : RegistryState T) (pfa : Pfa) (it : T) :
    ∃ (st1 : RegistryState T) (pfa1 : Pfa),
      st1.slots = st.slots ∧ st1.last_free_id = st.last_free_id ∧
      st1.total_count = st.total_count ∧
      st.total_page_count ≤ st1.total_page_count ∧
      pfa1.free_pages.length + st1.total_page_count =
        pfa.free_pages.length + st.total_page_count ∧
      ((∃ err, insert_grow cfg st pfa it = ⟨.error err, st1, pfa1⟩) ∨
       insert_grow cfg st pfa it =
         ⟨.ok st1.total_count,
          { st1 with
              total_count := st1.total_count + 1
              slots := st1.slots ++ [⟨.item it, 1⟩] }, pfa1⟩) := by
  by_cases hrange :
      cfg.range_lo + (st.total_count * cfg.slot_size + cfg.slot_size) - 1 >
        cfg.range_hi
  · refine ⟨st, pfa, rfl, rfl, rfl, Nat.le_refl _, rfl,
      Or.inl ⟨.virtOutOfRange, ?_⟩⟩
    simp only [insert_grow]
    rw [if_pos hrange]
  · by_cases hgt :
        (st.total_count * cfg.slot_size + cfg.slot_size) / 4096 * 4096 + 1 >
          st.total_page_count
    · rcases hgrow : grow_pages cfg
          ((st.total_count * cfg.slot_size + cfg.slot_size) / 4096 * 4096 + 1 -
            st.total_page_count) st.total_page_count st pfa with ⟨e, st1, pfa1⟩
      have hpres := grow_pages_preserve (T := T) cfg
        ((st.total_count * cfg.slot_size + cfg.slot_size) / 4096 * 4096 + 1 -
          st.total_page_count) st.total_page_count st pfa
      have hmono := grow_pages_tpc_mono (T := T) cfg
        ((st.total_count * cfg.slot_size + cfg.slot_size) / 4096 * 4096 + 1 -
          st.total_page_count) st.total_page_count st pfa
      have hbal := grow_pages_balance (T := T) cfg
        ((st.total_count * cfg.slot_size + cfg.slot_size) / 4096 * 4096 + 1 -
          st.total_page_count) st.total_page_count st pfa
      rw [hgrow] at hpres hmono hbal
      refine ⟨st1, pfa1, hpres.1, hpres.2.1, hpres.2.2, hmono, hbal, ?_⟩
      cases e with
      | some err =>
        refine Or.inl ⟨err, ?_⟩
        simp only [insert_grow]
        rw [if_neg hrange, if_pos hgt, hgrow]
      | none =>
        refine Or.inr ?_
        simp only [insert_grow]
        rw [if_neg hrange, if_pos hgt, hgrow]
    · refine ⟨st, pfa, rfl, rfl, rfl, Nat.le_refl _, rfl, Or.inr ?_⟩
      simp only [insert_grow]
      rw [if_neg hrange, if_neg hgt]

theorem insert_grow_tpc_mono {T : Type} (cfg : SegmentConfig)
    (st : RegistryState T) (pfa : Pfa) (it : T) :
    st.total_page_count ≤ (insert_grow cfg st pfa it).st.total_page_count := by
  obtain ⟨st1, pfa1, -, -, -, hmono, -, hcase⟩ :=
    insert_grow_anatomy cfg st pfa it
  rcases hcase with ⟨err, heq⟩ | heq <;> rw [heq] <;> exact hmono

theorem insert_grow_balance {T : Type} (cfg : SegmentConfig)
    (st : RegistryState T) (pfa : Pfa) (it : T) :
    (insert_grow cfg st pfa it).pfa.free_pages.length +
      (insert_grow cfg st pfa it).st.total_page_count =
    pfa.free_pages.length + st.total_page_count := by
  obtain ⟨st1, pfa1, -, -, -, -, hbal, hcase⟩ :=
    insert_grow_anatomy cfg st pfa it
  rcases hcase with ⟨err, heq⟩ | heq <;> rw [heq] <;> exact hbal

theorem insert_grow_ok {T : Type} (cfg : SegmentConfig)
    (st : RegistryState T) (pfa : Pfa) (it : T) (id : Nat)
    (hok : (insert_grow cfg st pfa it).res = .ok id) :
    id = st.total_count ∧
    (insert_grow cfg st pfa it).st.total_count = st.total_count + 1 ∧
    (insert_grow cfg st pfa it).st.last_free_id = st.last_free_id := by
  obtain ⟨st1, pfa1, -, hlfi, htc, -, -, hcase⟩ :=
    insert_grow_anatomy cfg st pfa it
  rcases hcase with ⟨err, heq⟩ | heq
  · rw [heq] at hok
    cases hok
  · rw [heq] at hok ⊢
    simp only at hok ⊢
    cases hok
    exact ⟨htc, by omega, hlfi⟩

theorem insert_reuse_spec {T : Type} {st : RegistryState T} {pfa : Pfa}
    {it : T} {f : ItemFrame T} (hf : st.slots[st.last_free_id]? = some f) :
    insert_reuse st pfa it =
      ⟨.ok st.last_free_id,
       { st with
           last_free_id := f.maybe_item.next_free_val
           slots := st.slots.set st.last_free_id
             ⟨.item it, uadd1 f.user_count⟩ },
       pfa⟩ := by
  simp only [insert_reuse, hf]

theorem insert_permanent_tpc_mono {T : Type} (cfg : SegmentConfig)
    (st : RegistryState T) (pfa : Pfa) (it : T) :
    st.total_page_count ≤
      (insert_permanent cfg st pfa it).st.total_page_count := by
  unfold insert_permanent
  split
  · exact insert_grow_tpc_mono cfg st pfa it
  · unfold insert_reuse
    cases hf : st.slots[st.last_free_id]? <;> simp [hf]

theorem insert_permanent_balance {T : Type} (cfg : SegmentConfig)
    (st : RegistryState T) (pfa : Pfa) (it : T) :
    (insert_permanent cfg st pfa it).pfa.free_pages.length +
      (insert_permanent cfg st pfa it).st.total_page_count =
    pfa.free_pages.length + st.total_page_count := by
  unfold insert_permanent
  split
  · exact insert_grow_balance cfg st pfa it
  · unfold insert_reuse
    cases hf : st.slots[st.last_free_id]? <;> simp [hf]

theorem registry_get_tpc {T : Type} (st : RegistryState T) (id : Nat) :
    (registry_get st id).2.total_page_count = st.total_page_count := by
  unfold registry_get
  split
  · rfl
  · cases hf : st.slots[id]? with
    | none => rfl
    | some f => by_cases hc : f.user_count = 0 <;> simp [hf, hc]

theorem lease_item_at_tpc {T : Type} (st : RegistryState T) (id : Nat) :
    (lease_item_at st id).total_page_count = st.total_page_count := by
  unfold lease_item_at
  cases hf : st.slots[id]? <;> simp [hf]

theorem forget_item_at_tpc {T : Type} (st : RegistryState T) (id : Nat) :
    (forget_item_at st id).total_page_count = st.total_page_count := by
  unfold forget_item_at
  cases hf : st.slots[id]? with
  | none => rfl
  | some f => by_cases hc : f.user_count = 1 <;> simp [hf, hc]

theorem run_op_tpc_mono {T : Type} (op : RegistryOp T)
    (s : RegistryState T × Pfa) :
    s.1.total_page_count ≤ (run_op op s).1.total_page_count := by
  obtain ⟨st, pfa⟩ := s
  cases op with
  | insert cfg it => exact insert_permanent_tpc_mono cfg st pfa it
  | get id => exact Nat.le_of_eq (registry_get_tpc st id).symm
  | clone id => exact Nat.le_of_eq (lease_item_at_tpc st id).symm
  | drop id => exact Nat.le_of_eq (forget_item_at_tpc st id).symm

theorem run_ops_tpc_mono {T : Type} (ops : List (RegistryOp T)) :
    ∀ (s : RegistryState T × Pfa),
      s.1.total_page_count ≤ (run_ops ops s).1.total_page_count := by
  induction ops with
  | nil => intro s; exact Nat.le_refl _
  | cons op rest ih =>
    intro s
    calc s.1.total_page_count
        ≤ (run_op op s).1.total_page_count := run_op_tpc_mono op s
      _ ≤ _ := ih (run_op op s)

theorem getElem?_some_lt {α : Type} {l : List α} {i : Nat} {a : α}
    (h : l[i]? = some a) : i < l.length := by
  rcases List.getElem?_eq_some_iff.mp h with ⟨hlt, -⟩
  exact hlt

theorem lease_item_at_spec {T : Type} {st : RegistryState T} {id : Nat}
    {f : ItemFrame T} (hf : st.slots[id]? = some f) :
    lease_item_at st id =
      { st with
          slots := st.slots.set id ⟨f.maybe_item, uadd1 f.user_count⟩ } := by
  simp only [lease_item_at, hf]

theorem forget_item_at_dec {T : Type} {st : RegistryState T} {id : Nat}
    {f : ItemFrame T} (hf : st.slots[id]? = some f)
    (hc : f.user_count ≠ 1) :
    forget_item_at st id =
      { st with
          slots := st.slots.set id ⟨f.maybe_item, usub1 f.user_count⟩ } := by
  simp only [forget_item_at, hf, hc, if_false]

theorem forget_item_at_last {T : Type} {st : RegistryState T} {id : Nat}
    {f : ItemFrame T} (hf : st.slots[id]? = some f)
    (hc : f.user_count = 1) :
    forget_item_at st id =
      { st with
          slots := st.slots.set id ⟨.next_free st.last_free_id, 0⟩
          last_free_id := id } := by
  simp only [forget_item_at, hf, hc, if_true, usub1_one]

theorem lease_iter_item {T : Type} (id : Nat) (a : T) :
    ∀ (k c : Nat) (st : RegistryState T),
      st.slots[id]? = some ⟨.item a, c⟩ → c + k < USIZE →
      (lease_iter id k st).slots[id]? = some ⟨.item a, c + k⟩ ∧
      (lease_iter id k st).last_free_id = st.last_free_id := by
  intro k
  induction k with
  | zero => intro c st hf _; exact ⟨hf, rfl⟩
  | succ n ih =>
    intro c st hf hlt
    have hid : id < st.slots.length := getElem?_some_lt hf
    have hc1 : uadd1 c = c + 1 := uadd1_eq_succ (by omega)
    have hstep := lease_item_at_spec hf
    have hf' : (lease_item_at st id).slots[id]? = some ⟨.item a, c + 1⟩ := by
      rw [hstep]
      simp [List.getElem?_set_self hid, hc1]
    have hrec := ih (c + 1) (lease_item_at st id) hf' (by omega)
    have hlfi : (lease_item_at st id).last_free_id = st.last_free_id := by
      rw [hstep]
    refine ⟨?_, ?_⟩
    · show (lease_iter id n (lease_item_at st id)).slots[id]? = _
      rw [hrec.1]
      have harith : c + 1 + n = c + (n + 1) := by omega
      rw [harith]
    · show (lease_iter id n (lease_item_at st id)).last_free_id = _
      rw [hrec.2, hlfi]

theorem forget_iter_item {T : Type} (id : Nat) (a : T) :
    ∀ (j c : Nat) (st : RegistryState T),
      st.slots[id]? = some ⟨.item a, c⟩ → j < c → c < USIZE →
      (forget_iter id j st).slots[id]? = some ⟨.item a, c - j⟩ ∧
      (forget_iter id j st).last_free_id = st.last_free_id := by
  intro j
  induction j with
  | zero =>
    intro c st hf _ _
    refine ⟨?_, rfl⟩
    simpa using hf
  | succ n ih =>
    intro c st hf hj hc
    have hid : id < st.slots.length := getElem?_some_lt hf
    have hcnot1 : ({ maybe_item := .item a, user_count := c } :
        ItemFrame T).user_count ≠ 1 := by
      simp only
      omega
    have hstep := forget_item_at_dec hf hcnot1
    have hsub : usub1 c = c - 1 := usub1_eq_pred (by omega) hc
    have hf' : (forget_item_at st id).slots[id]? = some ⟨.item a, c - 1⟩ := by
      rw [hstep]
      simp [List.getElem?_set_self hid, hsub]
    have hrec := ih (c - 1) (forget_item_at st id) hf' (by omega) (by omega)
    have hlfi : (forget_item_at st id).last_free_id = st.last_free_id := by
      rw [hstep]
    refine ⟨?_, ?_⟩
    · show (forget_iter id n (forget_item_at st id)).slots[id]? = _
      rw [hrec.1]
      have harith : c - 1 - n = c - (n + 1) := by omega
      rw [harith]
    · show (forget_iter id n (forget_item_at st id)).last_free_id = _
      rw [hrec.2, hlfi]

theorem forget_iter_succ_last {T : Type} (id : Nat) :
    ∀ (j : Nat) (st : RegistryState T),
      forget_iter id (j + 1) st = forget_item_at (forget_iter id j st) id := by
  intro j
  induction j with
  | zero => intro st; rfl
  | succ n ih =>
    intro st
    show forget_iter id (n + 1) (forget_item_at st id) = _
    rw [ih (forget_item_at st id)]
    rfl

/-! Concrete scenario states used by the claim theorems and their
witnesses.  All use T = Nat and a permissive external mapper. -/

/-- One-page segment with 16-byte slots for the C1 scenario. -/
def c1_cfg : SegmentConfig :=
  { slot_size := 16, range_lo := 0, range_hi := 4095
    map_ok := fun _ _ => true }

/-- C1 scenario: insert item A into a fresh registry. -/
def c1_insA : InsertResult Nat :=
  insert_permanent c1_cfg (RegistryState.new Nat) ⟨[50]⟩ 10

/-- C1 scenario: insert item B. -/
def c1_insB : InsertResult Nat :=
  insert_permanent c1_cfg c1_insA.st c1_insA.pfa 11

/-- C1 scenario: drop the last handle to A (slot 0). -/
def c1_after_drop : RegistryState Nat := forget_item_at c1_insB.st 0

/-- C1 scenario: insert item C after dropping A. -/
def c1_insC : InsertResult Nat :=
  insert_permanent c1_cfg c1_after_drop c1_insB.pfa 12

/-- Claim C1: when the free list is non-empty, insert_permanent pops
its head and reuses that slot id without growing the backing memory
(slot array length, total page count and allocator pool are all
unchanged); in particular, in the concrete scenario insert A gets id
0, insert B gets id 1, and after dropping the last handle to A the
next insert returns id 0 (not 2) with the page count unchanged. -/
theorem C1_free_list_pop_reuses_slot (T : Type) (cfg : SegmentConfig)
    (st : RegistryState T) (pfa : Pfa) (it : T) (f : ItemFrame T)
    (hne : st.last_free_id ≠ USIZE_MAX)
    (hf : st.slots[st.last_free_id]? = some f) :
    ((insert_permanent cfg st pfa it).res = .ok st.last_free_id ∧
     (insert_permanent cfg st pfa it).st.slots.length = st.slots.length ∧
     (insert_permanent cfg st pfa it).st.total_page_count =
       st.total_page_count ∧
     (insert_permanent cfg st pfa it).pfa = pfa) ∧
    (c1_insA.res = .ok 0 ∧ c1_insB.res = .ok 1 ∧ c1_insC.res = .ok 0 ∧
     c1_insC.st.total_page_count = c1_insB.st.total_page_count) := by
  constructor
  · have hbranch : insert_permanent cfg st pfa it = insert_reuse st pfa it := by
      unfold insert_permanent
      rw [if_neg hne]
    rw [hbranch, insert_reuse_spec hf]
    exact ⟨rfl, by simp, rfl, rfl⟩
  · exact ⟨rfl, rfl, rfl, rfl⟩

/-- Witness for C1: the scenario state after dropping A has free list
head 0, and the theorem applied there returns id 0. -/
theorem C1_free_list_pop_reuses_slot_witness :
    c1_after_drop.last_free_id ≠ USIZE_MAX ∧
    (insert_permanent c1_cfg c1_after_drop c1_insB.pfa 12).res =
      .ok c1_after_drop.last_free_id :=
  ⟨by decide,
   (C1_free_list_pop_reuses_slot Nat c1_cfg c1_after_drop c1_insB.pfa 12
      ⟨.next_free USIZE_MAX, 0⟩ (by decide) (by decide)).1.1⟩

/-- A one-slot registry holding a live item with reference count 1,
used for the C2 witness. -/
def c2_st : RegistryState Nat :=
  { slots := [⟨.item 5, 1⟩], last_free_id := USIZE_MAX
    total_count := 1, total_page_count := 1 }

/-- Claim C2: from a slot with reference count 1 (a fresh insert),
after k clones (lease_item_at) and then j ≤ k drops (forget_item_at),
the payload is still present with count k + 1 - j and nothing has been
pushed onto the free list; the (k+1)-th drop destroys the payload and
pushes the slot onto the free list (the slot becomes the free-list
head, linking to the previous head). -/
theorem C2_refcount_invariant (T : Type) (st : RegistryState T)
    (id k j : Nat) (a : T)
    (hs : st.slots[id]? = some ⟨.item a, 1⟩)
    (hk : k + 1 < USIZE) (hj : j ≤ k) :
    ((forget_iter id j (lease_iter id k st)).slots[id]? =
        some ⟨.item a, k + 1 - j⟩ ∧
     (forget_iter id j (lease_iter id k st)).last_free_id =
        st.last_free_id) ∧
    (forget_iter id (k + 1) (lease_iter id k st)).slots[id]? =
        some ⟨.next_free st.last_free_id, 0⟩ ∧
    (forget_iter id (k + 1) (lease_iter id k st)).last_free_id = id := by
  have hlease := lease_iter_item id a k 1 st hs (by omega)
  have h1k : (1 : Nat) + k = k + 1 := by omega
  rw [h1k] at hlease
  have hpart1 := forget_iter_item id a j (k + 1) (lease_iter id k st)
    hlease.1 (by omega) hk
  have hpartk := forget_iter_item id a k (k + 1) (lease_iter id k st)
    hlease.1 (by omega) hk
  have hfk : (forget_iter id k (lease_iter id k st)).slots[id]? =
      some ⟨.item a, 1⟩ := by
    rw [hpartk.1]
    have harith : k + 1 - k = 1 := by omega
    rw [harith]
  have hid : id < (forget_iter id k (lease_iter id k st)).slots.length :=
    getElem?_some_lt hfk
  have hlfik : (forget_iter id k (lease_iter id k st)).last_free_id =
      st.last_free_id := by
    rw [hpartk.2, hlease.2]
  refine ⟨⟨hpart1.1, by rw [hpart1.2, hlease.2]⟩, ?_, ?_⟩
  · rw [forget_iter_succ_last, forget_item_at_last hfk rfl]
    simp only [List.getElem?_set_self hid, hlfik]
  · rw [forget_iter_succ_last, forget_item_at_last hfk rfl]

/-- Witness for C2: one slot, k = 2 clones, j = 1 drop keeps the
payload at count 2; the third drop frees the slot. -/
theorem C2_refcount_invariant_witness :
    (forget_iter 0 1 (lease_iter 0 2 c2_st)).slots[0]? =
      some ⟨.item 5, 2⟩ ∧
    (forget_iter 0 3 (lease_iter 0 2 c2_st)).slots[0]? =
      some ⟨.next_free USIZE_MAX, 0⟩ :=
  ⟨(C2_refcount_invariant Nat c2_st 0 2 1 5 rfl (by decide) (by decide)).1.1,
   (C2_refcount_invariant Nat c2_st 0 2 1 5 rfl (by decide) (by decide)).2.1⟩

/-- A one-slot registry holding a live item with reference count 1,
used by the C3 theorem (the failing input of the claim). -/
def c3_st : RegistryState Nat :=
  { slots := [⟨.item 7, 1⟩], last_free_id := USIZE_MAX
    total_count := 1, total_page_count := 1 }

/-- Claim C3 is contradicted by the code: Handle::clone does increment
the reference count by one, but the debug assertion in lease_item_at
is debug_assert_eq(last_user_count, 0), which FIRES for every clone of
a live handle (count at least 1), instead of checking that the count
was not previously zero.  At the failing input (a slot with count 1),
the asserted condition is false while the increment still happens. -/
theorem C3_clone_assert_fires_on_live_handle :
    slot_count c3_st 0 = 1 ∧
    ¬ lease_debug_assert c3_st 0 ∧
    slot_count (lease_item_at c3_st 0) 0 = 2 := by
  refine ⟨by decide, ?_, by decide⟩
  intro h
  simp only [lease_debug_assert] at h
  exact absurd h (by decide)

/-- Segment able to hold exactly one 4096-byte slot, for the C4
counterexample. -/
def c4_cfg : SegmentConfig :=
  { slot_size := 4096, range_lo := 0, range_hi := 4095
    map_ok := fun _ _ => true }

/-- An allocator with a single free page, for the C4 counterexample. -/
def c4_pfa : Pfa := ⟨[100]⟩

/-- The failing insert of the C4 counterexample. -/
def c4_result : InsertResult Nat :=
  insert_permanent c4_cfg (RegistryState.new Nat) c4_pfa 0

/-- Counterexample to claim C4: this insert fails with OutOfMemory
after having acquired and successfully mapped one physical page; that
page is NOT released back to the allocator before the error returns
(the pool is empty afterwards, and the page stays accounted to the
registry as total_page_count = 1), so the allocator page ownership is
not as it was before the call. -/
theorem C4_counterexample_pages_not_released :
    c4_result.res = .error .outOfMemory ∧
    c4_result.pfa = ⟨[]⟩ ∧
    c4_result.pfa ≠ c4_pfa ∧
    c4_result.st.total_page_count = 1 := by
  refine ⟨rfl, rfl, by decide, rfl⟩

/-- Claim C4 as amended: a failed insert does not restore the
allocator pool; instead, pages successfully mapped during the failed
growth are retained by the registry and recorded in total_page_count
(and a page whose mapping failed is pushed back to the pool), so the
combined accounting pool size + total_page_count is preserved by every
insert, successful or failed - no page is leaked. -/
theorem C4_amended_page_accounting (T : Type) (cfg : SegmentConfig)
    (st : RegistryState T) (pfa : Pfa) (it : T) :
    (insert_permanent cfg st pfa it).pfa.free_pages.length +
      (insert_permanent cfg st pfa it).st.total_page_count =
    pfa.free_pages.length + st.total_page_count :=
  insert_permanent_balance cfg st pfa it

/-- Two-page segment with 16-byte slots for the C5 failing input. -/
def c5_cfg : SegmentConfig :=
  { slot_size := 16, range_lo := 0, range_hi := 8191
    map_ok := fun _ _ => true }

/-- Registry state reached after 255 successful 16-byte inserts: one
backing page, 255 slots, empty free list. -/
def c5_st : RegistryState Nat :=
  { slots := List.replicate 255 ⟨.item 0, 1⟩, last_free_id := USIZE_MAX
    total_count := 255, total_page_count := 1 }

/-- An allocator with two free pages for the C5 failing input. -/
def c5_pfa : Pfa := ⟨[7, 8]⟩

/-- The failing insert of the C5 claim. -/
def c5_result : InsertResult Nat :=
  insert_permanent c5_cfg c5_st c5_pfa 9

/-- Claim C5 is contradicted by the code: at this input the free list
is empty, the new slot (bytes 4080..4095) lies entirely inside the
already-backed page range (byte_offset_end = 4096 <= 4096 *
total_page_count) and the reserved range is not exceeded, so per the
claim no page should be requested and the insert should succeed; but
the code computes new_page_count = (byte_offset_end AND NOT 4095) + 1
= 4097, treating a byte offset as a page count, requests thousands of
pages, drains the two-page allocator (total_page_count grows to 3) and
fails with OutOfMemory. -/
theorem C5_spurious_page_requests :
    c5_st.last_free_id = USIZE_MAX ∧
    c5_st.total_count * c5_cfg.slot_size + c5_cfg.slot_size ≤
      4096 * c5_st.total_page_count ∧
    ¬ (c5_cfg.range_lo +
        (c5_st.total_count * c5_cfg.slot_size + c5_cfg.slot_size) - 1 >
        c5_cfg.range_hi) ∧
    c5_result.res = .error .outOfMemory ∧
    c5_result.st.total_page_count = 3 ∧
    c5_result.pfa = ⟨[]⟩ := by
  refine ⟨rfl, by decide, by decide, rfl, rfl, rfl⟩

/-- A one-slot registry with a live item, used by the C6 witness. -/
def c6_st : RegistryState Nat :=
  { slots := [⟨.item 3, 1⟩], last_free_id := USIZE_MAX
    total_count := 1, total_page_count := 1 }

/-- Claim C6: on a well-formed registry (initialized prefix of length
total_count), get returns none exactly when the id is out of bounds or
the slot reference count is zero; otherwise it increments the count by
one (with machine wrap) and returns a handle to that slot, so a slot
with at least one live handle (count nonzero) is never observed
vacant. -/
theorem C6_get_contract (T : Type) (st : RegistryState T) (id : Nat)
    (hwf : st.total_count = st.slots.length) :
    ((registry_get st id).1 = none ↔
      st.total_count ≤ id ∨ slot_count st id = 0) ∧
    (id < st.total_count → slot_count st id ≠ 0 →
      (registry_get st id).1 = some id ∧
      slot_count (registry_get st id).2 id = uadd1 (slot_count st id)) := by
  by_cases hb : st.total_count ≤ id
  · constructor
    · unfold registry_get
      rw [if_pos hb]
      exact ⟨fun _ => Or.inl hb, fun _ => rfl⟩
    · intro hlt
      omega
  · have hid : id < st.slots.length := by omega
    have hf : st.slots[id]? = some st.slots[id] :=
      List.getElem?_eq_getElem hid
    by_cases hc : st.slots[id].user_count = 0
    · have hnone : (registry_get st id).1 = none := by
        unfold registry_get
        rw [if_neg hb, hf]
        simp only [hc, if_pos]
      have hcount : slot_count st id = 0 := by
        unfold slot_count
        rw [hf]
        exact hc
      constructor
      · rw [hnone]
        exact ⟨fun _ => Or.inr hcount, fun _ => rfl⟩
      · intro _ hne
        exact absurd hcount hne
    · have hsome : registry_get st id =
          (some id,
           { st with
               slots := st.slots.set id
                 ⟨st.slots[id].maybe_item, uadd1 st.slots[id].user_count⟩ }) := by
        unfold registry_get
        rw [if_neg hb, hf]
        simp only [hc, if_neg, if_false]
      have hcount : slot_count st id = st.slots[id].user_count := by
        unfold slot_count
        rw [hf]
      constructor
      · rw [hsome]
        simp only [hcount]
        constructor
        · intro h
          cases h
        · intro h
          rcases h with h | h
          · omega
          · exact absurd h hc
      · intro _ _
        refine ⟨by rw [hsome], ?_⟩
        rw [hsome, hcount]
        unfold slot_count
        simp [List.getElem?_set_self hid]

/-- Witness for C6: get on a one-slot registry with a live item
returns a handle and bumps the count. -/
theorem C6_get_contract_witness :
    (registry_get c6_st 0).1 = some 0 ∧
    slot_count (registry_get c6_st 0).2 0 = uadd1 (slot_count c6_st 0) :=
  (C6_get_contract Nat c6_st 0 rfl).2 (by decide) (by decide)

/-- Claim C8: total_page_count is non-decreasing across every sequence
of registry operations (insert, get, clone, drop); moreover a drop
(forget_item_at) leaves the page count exactly unchanged - the slot is
recycled onto the free list without shrinking the backing range (the
code has no unmap operation at all). -/
theorem C8_total_page_count_monotone (T : Type)
    (ops : List (RegistryOp T)) (st : RegistryState T) (pfa : Pfa)
    (id : Nat) :
    st.total_page_count ≤ (run_ops ops (st, pfa)).1.total_page_count ∧
    (forget_item_at st id).total_page_count = st.total_page_count :=
  ⟨run_ops_tpc_mono ops (st, pfa), forget_item_at_tpc st id⟩

/-- Fresh one-page segment configuration for the C10 witness. -/
def c10_cfg : SegmentConfig :=
  { slot_size := 16, range_lo := 0, range_hi := 4095
    map_ok := fun _ _ => true }

/-- An allocator with one free page for the C10 witness. -/
def c10_pfa : Pfa := ⟨[50]⟩

/-- Claim C10: a fresh registry has an empty free list (last_free_id =
usize::MAX) and zero slots; while the free list stays empty every
successful insert returns id = total_count and bumps total_count by
one, keeping the free list empty - so successful inserts return
consecutive ids from 0, and in particular the first insert into a
fresh registry returns id 0 (the root ring id the boot path asserts). -/
theorem C10_fresh_registry_consecutive_ids (T : Type)
    (cfg : SegmentConfig) (st : RegistryState T) (pfa : Pfa) (it : T)
    (id : Nat)
    (hfree : st.last_free_id = USIZE_MAX)
    (hok : (insert_permanent cfg st pfa it).res = .ok id) :
    (RegistryState.new T).last_free_id = USIZE_MAX ∧
    (RegistryState.new T).total_count = 0 ∧
    (RegistryState.new T).slots = [] ∧
    id = st.total_count ∧
    (insert_permanent cfg st pfa it).st.total_count = st.total_count + 1 ∧
    (insert_permanent cfg st pfa it).st.last_free_id = USIZE_MAX ∧
    (insert_permanent c10_cfg (RegistryState.new Nat) c10_pfa 42).res =
      .ok 0 := by
  have hbranch : insert_permanent cfg st pfa it = insert_grow cfg st pfa it := by
    unfold insert_permanent
    rw [if_pos hfree]
  rw [hbranch] at hok ⊢
  obtain ⟨h1, h2, h3⟩ := insert_grow_ok cfg st pfa it id hok
  exact ⟨rfl, rfl, rfl, h1, h2, by rw [h3, hfree], rfl⟩

/-- Witness for C10: the very first insert into a fresh registry
returns id 0 = total_count and leaves the free list empty. -/
theorem C10_fresh_registry_consecutive_ids_witness :
    0 = (RegistryState.new Nat).total_count ∧
    (insert_permanent c10_cfg (RegistryState.new Nat) c10_pfa 42).st.total_count =
      (RegistryState.new Nat).total_count + 1 ∧
    (insert_permanent c10_cfg (RegistryState.new Nat) c10_pfa 42).st.last_free_id =
      USIZE_MAX :=
  ⟨(C10_fresh_registry_consecutive_ids Nat c10_cfg (RegistryState.new Nat)
      c10_pfa 42 0 rfl rfl).2.2.2.1,
   (C10_fresh_registry_consecutive_ids Nat c10_cfg (RegistryState.new Nat)
      c10_pfa 42 0 rfl rfl).2.2.2.2.1,
   (C10_fresh_registry_consecutive_ids Nat c10_cfg (RegistryState.new Nat)
      c10_pfa 42 0 rfl rfl).2.2.2.2.2.1⟩

end OroRegistry

namespace OroSpinlock

/-- Claim C9: for every prior interrupt state, acquiring the spinlock
(on a free lock; a held lock keeps the core spinning) saves the prior
interrupt state in the guard and leaves interrupts at the designated
disabled value for the duration of the hold, and dropping the guard
releases the lock and restores exactly the saved prior state - so the
interrupt state after an acquire/release pair equals the state before
the acquire. -/
theorem C9_spinlock_restores_interrupts (S : Type) (disabled : S)
    (s : SpinlockState S) (h : s.owned = false) :
    spinlock_lock disabled s =
      some ({ owned := true, int_state := disabled }, s.int_state) ∧
    spinlock_guard_drop { owned := true, int_state := disabled }
        s.int_state =
      { owned := false, int_state := s.int_state } := by
  constructor
  · simp [spinlock_lock, h]
  · rfl

/-- Witness for C9 with S = Bool (interrupts enabled = true): locking
saves the enabled state and disables; dropping restores enabled. -/
theorem C9_spinlock_restores_interrupts_witness :
    spinlock_lock false ({ owned := false, int_state := true } :
        SpinlockState Bool) =
      some ({ owned := true, int_state := false }, true) ∧
    spinlock_guard_drop
        ({ owned := true, int_state := false } : SpinlockState Bool) true =
      { owned := false, int_state := true } :=
  ⟨(C9_spinlock_restores_interrupts Bool false
      { owned := false, int_state := true } rfl).1,
   (C9_spinlock_restores_interrupts Bool false
      { owned := false, int_state := true } rfl).2⟩

end OroSpinlock

namespace OroItemIter

/-- A single detached node, the simplest failing input for C7. -/
def c7_single : List LinkNode := [⟨none, none⟩]

/-- A two-node chain: node 0 is the head, node 1 the tail. -/
def c7_chain : List LinkNode := [⟨none, some 1⟩, ⟨some 0, none⟩]

/-- Claim C7 is contradicted by the code: ItemIter::next returns the
successor link instead of the node it took out of current, so the
iterator never yields its starting node.  Forward iteration from a
single detached node yields nothing (the claim says it yields the
node); forward iteration from the head of a two-node chain yields only
the second node; and iter_all - which relies on the backward iterator
to find the head - yields nothing at all when started from the head
(the backward iterator from the head yields no element, so there is no
last element to restart from) and skips the head when started from the
tail. -/
theorem C7_iterator_skips_start :
    iter_collect c7_single .forward 5 (some 0) = [] ∧
    iter_collect c7_chain .forward 5 (some 0) = [1] ∧
    iter_collect c7_chain .backward 5 (some 1) = [0] ∧
    iter_all_collect c7_chain 5 (some 0) = [] ∧
    iter_all_collect c7_chain 5 (some 1) = [1] :=
  ⟨rfl, rfl, rfl, rfl, rfl⟩

end OroItemIter
